import Mathlib

/-! Verification of the Minesweeper constraint-propagation engine from
`src/week1/projects1/minesweeper/minesweeper.py`.  The embedding below
translates the `Sentence` class and the `MinesweeperAI` class (its
`mark_mine`, `mark_safe`, `get_neighbors`, `add_knowledge` and
`make_random_move` operations) into pure Lean functions; mutation of the
Python objects becomes explicit state passing on a `MinesweeperAI`
record, and the `raise Exception` in `add_knowledge` step 5 becomes an
`Option String` error component of the result. -/

set_option maxRecDepth 4000

/-- Board cells are `(i, j)` pairs of Python integers. -/
abbrev Cell := Int × Int

/-- The `Sentence` class: a set of board cells and a count of how many of
those cells are mines.  Python's `__eq__` compares `cells` and `count`,
which coincides with structural equality here. -/
structure Sentence where
  cells : Finset Cell
  count : Int
deriving DecidableEq

/-- The `Sentence.known_mines` method: returns `self.cells` when
`self.count == len(self.cells)`, and Python's implicit `None` otherwise. -/
def Sentence.known_mines (t : Sentence) : Option (Finset Cell) :=
  if t.count = (t.cells.card : Int) then some t.cells else none

/-- The `Sentence.known_safes` method: returns `self.cells` when
`self.count == 0`, and Python's implicit `None` otherwise. -/
def Sentence.known_safes (t : Sentence) : Option (Finset Cell) :=
  if t.count = 0 then some t.cells else none

/-- The `Sentence.mark_mine` method: if the cell is in the sentence, remove
it and decrement `count` by one (unconditionally, with no lower bound
check); otherwise leave the sentence unchanged. -/
def Sentence.mark_mine (t : Sentence) (cell : Cell) : Sentence :=
  if cell ∈ t.cells then ⟨t.cells.erase cell, t.count - 1⟩ else t

/-- The `Sentence.mark_safe` method: if the cell is in the sentence, remove
it and leave `count` unchanged; otherwise leave the sentence unchanged. -/
def Sentence.mark_safe (t : Sentence) (cell : Cell) : Sentence :=
  if cell ∈ t.cells then ⟨t.cells.erase cell, t.count⟩ else t

/-- Truth value Python assigns to the result of `known_safes` or
`known_mines` when it is used as an `if` condition in `add_knowledge`
step 4.3: `None` is falsy and so is an empty set. -/
def pyTruthy : Option (Finset Cell) → Bool
  | none => false
  | some t => decide (t ≠ ∅)

/-- The mutable state of the `MinesweeperAI` class: grid dimensions,
`moves_made`, `mines`, `safes`, and the `knowledge` list of sentences. -/
structure MinesweeperAI where
  height : Nat
  width : Nat
  moves_made : Finset Cell
  mines : Finset Cell
  safes : Finset Cell
  knowledge : List Sentence
deriving DecidableEq

/-- The `MinesweeperAI.mark_mine` method: add the cell to `self.mines` and
call `Sentence.mark_mine` on every sentence in `self.knowledge`. -/
def MinesweeperAI.mark_mine (s : MinesweeperAI) (cell : Cell) : MinesweeperAI :=
  { s with
    mines := insert cell s.mines
    knowledge := s.knowledge.map (fun t => t.mark_mine cell) }

/-- The `MinesweeperAI.mark_safe` method: add the cell to `self.safes` and
call `Sentence.mark_safe` on every sentence in `self.knowledge`. -/
def MinesweeperAI.mark_safe (s : MinesweeperAI) (cell : Cell) : MinesweeperAI :=
  { s with
    safes := insert cell s.safes
    knowledge := s.knowledge.map (fun t => t.mark_safe cell) }

/-- The `MinesweeperAI.get_neighbors` method: all in-bounds cells within one
row and one column of `cell`, excluding `cell` itself. -/
def MinesweeperAI.get_neighbors (s : MinesweeperAI) (cell : Cell) : Finset Cell :=
  (Finset.Icc (cell.1 - 1) (cell.1 + 1) ×ˢ Finset.Icc (cell.2 - 1) (cell.2 + 1)).filter
    (fun p => p ≠ cell ∧ 0 ≤ p.1 ∧ p.1 < (s.height : Int) ∧ 0 ≤ p.2 ∧ p.2 < (s.width : Int))

/-- Denotation of the two pruning loops in `add_knowledge` steps 3.3 and
3.4 (`new_sentence.mark_safe(safe_cell)` for every known safe, then
`new_sentence.mark_mine(mine)` for every known mine): the safe cells are
removed, then the mine cells are removed with `count` decremented once per
mine that was actually present.  The loops iterate over Python sets in
unspecified order; the lemmas `List.foldl_mark_safe` and
`List.foldl_mark_mine` below show this closed form is the result of the
loops for every enumeration order. -/
def pruneSentence (safes mines : Finset Cell) (t : Sentence) : Sentence :=
  ⟨(t.cells \ safes) \ mines,
   t.count - (((t.cells \ safes) ∩ mines).card : Int)⟩

/-- Steps 1 through 3 of `MinesweeperAI.add_knowledge`: record the move,
mark the probed cell safe (adding it to `safes` and updating every
sentence), build the sentence from the cell's neighbors and the observed
count, prune it against the current `safes` and `mines`, and append it. -/
def akStepsThrough3 (s : MinesweeperAI) (cell : Cell) (cnt : Int) : MinesweeperAI :=
  let safes1 := insert cell s.safes
  let kb1 := s.knowledge.map (fun t => t.mark_safe cell)
  let fresh := pruneSentence safes1 s.mines ⟨s.get_neighbors cell, cnt⟩
  { s with
    moves_made := insert cell s.moves_made
    safes := safes1
    knowledge := kb1 ++ [fresh] }

/-- Step 4.3 accumulation of `inferred_safes` over the knowledge list:
every sentence whose `known_safes()` is truthy contributes its cells. -/
def inferredSafes (kb : List Sentence) : Finset Cell :=
  kb.foldl (fun acc t => if pyTruthy t.known_safes then acc ∪ t.cells else acc) ∅

/-- Step 4.3 accumulation of `inferred_mines` over the knowledge list:
every sentence whose `known_mines()` is truthy contributes its cells. -/
def inferredMines (kb : List Sentence) : Finset Cell :=
  kb.foldl (fun acc t => if pyTruthy t.known_mines then acc ∪ t.cells else acc) ∅

/-- Membership test for the `sentences_to_remove` set of `add_knowledge`
step 4: the sentence yielded a truthy `known_safes()` or `known_mines()`. -/
def resolvedTruthy (t : Sentence) : Bool :=
  pyTruthy t.known_safes || pyTruthy t.known_mines

/-- Step 4.5 of `add_knowledge`: `self.knowledge.remove(sentence)` for each
sentence value in `sentences_to_remove`.  The Python set holds each
resolved sentence value once (`Sentence.__eq__` compares cells and count),
and `list.remove` deletes the first occurrence; removals of distinct
values commute, so the set's iteration order is immaterial. -/
def step4Remove (kb : List Sentence) : List Sentence :=
  ((kb.filter resolvedTruthy).dedup).foldl List.erase kb

/-- Step 4 of `MinesweeperAI.add_knowledge`: extract the inferred safes and
mines from the knowledge list, add them to `self.safes` and `self.mines`
(by direct set insertion — the code does not call `self.mark_safe` or
`self.mark_mine` here), and remove the resolved sentences. -/
def akStep4 (s : MinesweeperAI) : MinesweeperAI :=
  { s with
    safes := s.safes ∪ inferredSafes s.knowledge
    mines := s.mines ∪ inferredMines s.knowledge
    knowledge := step4Remove s.knowledge }

/-- Default used to read a list index that is known to be in range. -/
def sentenceAt (kb : List Sentence) (i : Nat) : Sentence :=
  kb.getD i ⟨∅, 0⟩

/-- Step 5.2 of `add_knowledge`: the set of index pairs `(a, b)` with
`KB[a].cells ⊆ KB[b].cells`, collected by scanning `i < j` and testing
`issubset` first and `issuperset` otherwise. -/
def subsetPairs (kb : List Sentence) : List (Nat × Nat) :=
  (List.range kb.length).flatMap (fun i =>
    ((List.range kb.length).filter (fun j => i < j)).filterMap (fun j =>
      if (sentenceAt kb i).cells ⊆ (sentenceAt kb j).cells then some (i, j)
      else if (sentenceAt kb j).cells ⊆ (sentenceAt kb i).cells then some (j, i)
      else none))

/-- Step 5.3 of `add_knowledge`: the sentence derived from the pair
`(i, j)`, namely `(KB[j].cells - KB[i].cells, KB[j].count - KB[i].count)`. -/
def derivedSentence (kb : List Sentence) (p : Nat × Nat) : Sentence :=
  ⟨(sentenceAt kb p.2).cells \ (sentenceAt kb p.1).cells,
   (sentenceAt kb p.2).count - (sentenceAt kb p.1).count⟩

/-- Message of the exception raised in `add_knowledge` step 5.3 when a
derived count is negative. -/
def subsetErrMsg : String :=
  "Something is wrong with the subsets. Check Minesweeper, line 360"

/-- Step 5 of `MinesweeperAI.add_knowledge`: scan the subset pairs; if any
pair derives a negative count, the exception is raised before anything is
appended (the staged `sentences_to_add` are discarded), so the knowledge
list is left as step 4 produced it; otherwise the derived sentences
(deduplicated, as `sentences_to_add` is a Python set) are appended. -/
def akStep5 (s : MinesweeperAI) : MinesweeperAI × Option String :=
  if (subsetPairs s.knowledge).any
      (fun p => decide ((derivedSentence s.knowledge p).count < 0)) then
    (s, some subsetErrMsg)
  else
    ({ s with knowledge := s.knowledge ++
        ((subsetPairs s.knowledge).map (derivedSentence s.knowledge)).dedup },
     none)

/-- The `MinesweeperAI.add_knowledge` method.  The first component is the
state of the AI object when the call ends (Python mutates in place, so the
mutations of steps 1 through 4 persist even when step 5 raises); the second
component is `some` exception message when step 5 raises and `none` when
the call returns normally. -/
def MinesweeperAI.add_knowledge (s : MinesweeperAI) (cell : Cell) (cnt : Int) :
    MinesweeperAI × Option String :=
  akStep5 (akStep4 (akStepsThrough3 s cell cnt))

/-- The rejection-sampling loop of `MinesweeperAI.make_random_move`, with
the random draws supplied as a stream: draw `draws idx`; return it if it is
neither a made move nor a known mine; otherwise decrement the
`moves_available` counter (the fuel) and give up with `None` when it
reaches zero. -/
def mrmGo (moves mines : Finset Cell) (draws : Nat → Cell) : Nat → Nat → Option Cell
  | 0, _ => none
  | fuel + 1, idx =>
    let d := draws idx
    if d ∉ moves ∧ d ∉ mines then some d
    else mrmGo moves mines draws fuel (idx + 1)

/-- The `MinesweeperAI.make_random_move` method: rejection sampling with the
attempt counter initialised to `height * width`.  The `draws` stream stands
for the successive `(randrange(height), randrange(width))` pairs. -/
def MinesweeperAI.make_random_move (s : MinesweeperAI) (draws : Nat → Cell) : Option Cell :=
  mrmGo s.moves_made s.mines draws (s.height * s.width) 0

/-- In-bounds predicate for a cell (the values `randrange(height)` and
`randrange(width)` can produce). -/
def inGrid (s : MinesweeperAI) (c : Cell) : Prop :=
  0 ≤ c.1 ∧ c.1 < (s.height : Int) ∧ 0 ≤ c.2 ∧ c.2 < (s.width : Int)

instance (s : MinesweeperAI) (c : Cell) : Decidable (inGrid s c) := by
  unfold inGrid; infer_instance

/-- Fresh AI on a 3×3 grid. -/
def fresh33 : MinesweeperAI := ⟨3, 3, ∅, ∅, ∅, []⟩

/-- State whose knowledge base holds the overlapping constraint
`({(0,1),(1,0),(1,1)}, 1)`; probing `(2,1)` (whose unpruned neighbors are
`{(1,0),(1,1),(1,2),(2,0),(2,2)}` and whose pruned sentence is
`({(1,0),(1,1)}, 1)`) brings the two constraints of the claim's scenario
together. -/
def stateC1 : MinesweeperAI :=
  ⟨3, 3, ∅, ∅, {(1, 2), (2, 0), (2, 2)}, [⟨{(0, 1), (1, 0), (1, 1)}, 1⟩]⟩

/-- Fresh AI on a 1×4 grid. -/
def stateC2 : MinesweeperAI := ⟨1, 4, ∅, ∅, ∅, []⟩

/-- State whose knowledge base holds one count-0 sentence over one cell. -/
def stateC5 : MinesweeperAI := ⟨3, 3, ∅, ∅, ∅, [⟨{((0 : Int), (1 : Int))}, 0⟩]⟩

/-- Fresh AI on a 2×2 grid. -/
def stateC6 : MinesweeperAI := ⟨2, 2, ∅, ∅, ∅, []⟩

/-- AI on a 2×2 grid whose knowledge base contains the informationless
sentence `(∅, 0)`. -/
def stateC6w : MinesweeperAI := ⟨2, 2, ∅, ∅, ∅, [⟨∅, 0⟩]⟩

/-- State whose knowledge base holds `({(0,0),(0,1),(0,2)}, 2)` and
`({(0,0),(0,1),(0,2),(1,0)}, 1)`: the first is a subset of the second with
a larger count, so the subset-derivation step derives a negative count. -/
def stateC7 : MinesweeperAI :=
  ⟨3, 3, ∅, ∅, ∅,
   [⟨{(0, 0), (0, 1), (0, 2)}, 2⟩, ⟨{(0, 0), (0, 1), (0, 2), (1, 0)}, 1⟩]⟩

/-- AI on a 1×2 grid where only `(0,0)` has been probed: `(0,1)` is a
candidate for a random move. -/
def stateC8 : MinesweeperAI := ⟨1, 2, {((0 : Int), (0 : Int))}, ∅, ∅, []⟩

/-- AI on a 1×1 grid whose single cell has been probed. -/
def stateC8w : MinesweeperAI := ⟨1, 1, {((0 : Int), (0 : Int))}, ∅, ∅, []⟩

/-- Removing a cell from a sentence via `mark_safe` in closed form: the
`if` is redundant because erasing an absent cell is the identity. -/
lemma Sentence.mark_safe_eq (t : Sentence) (c : Cell) :
    t.mark_safe c = ⟨t.cells.erase c, t.count⟩ := by
  unfold Sentence.mark_safe
  by_cases h : c ∈ t.cells
  · rw [if_pos h]
  · rw [if_neg h, Finset.erase_eq_of_not_mem h]

/-- Running the step 3.3 loop body over any enumeration of the safe cells
removes exactly those cells and keeps the count. -/
lemma foldl_mark_safe (l : List Cell) (t : Sentence) :
    l.foldl Sentence.mark_safe t = ⟨t.cells \ l.toFinset, t.count⟩ := by
  induction l generalizing t with
  | nil => simp
  | cons c l ih =>
      rw [List.foldl_cons, Sentence.mark_safe_eq, ih]
      have hc : t.cells.erase c \ l.toFinset = t.cells \ (c :: l).toFinset := by
        ext x
        simp only [Finset.mem_sdiff, Finset.mem_erase, List.toFinset_cons,
          Finset.mem_insert, List.mem_toFinset]
        tauto
      rw [hc]

/-- Reduction of `Sentence.mark_mine` when the cell is present. -/
lemma Sentence.mark_mine_of_mem {t : Sentence} {c : Cell} (h : c ∈ t.cells) :
    t.mark_mine c = ⟨t.cells.erase c, t.count - 1⟩ := by
  unfold Sentence.mark_mine
  rw [if_pos h]

/-- Reduction of `Sentence.mark_mine` when the cell is absent. -/
lemma Sentence.mark_mine_of_not_mem {t : Sentence} {c : Cell} (h : c ∉ t.cells) :
    t.mark_mine c = t := by
  unfold Sentence.mark_mine
  rw [if_neg h]

/-- Running the step 3.4 loop body over any enumeration of the mine cells
removes exactly those cells and decrements the count once per mine that was
present in the sentence. -/
lemma foldl_mark_mine (l : List Cell) (t : Sentence) :
    l.foldl Sentence.mark_mine t =
      ⟨t.cells \ l.toFinset, t.count - ((t.cells ∩ l.toFinset).card : Int)⟩ := by
  induction l generalizing t with
  | nil => simp
  | cons c l ih =>
      rw [List.foldl_cons]
      by_cases h : c ∈ t.cells
      · rw [Sentence.mark_mine_of_mem h, ih]
        have hc : t.cells.erase c \ l.toFinset = t.cells \ (c :: l).toFinset := by
          ext x
          simp only [Finset.mem_sdiff, Finset.mem_erase, List.toFinset_cons,
            Finset.mem_insert, List.mem_toFinset]
          tauto
        have hcard : t.cells ∩ (c :: l).toFinset = insert c (t.cells.erase c ∩ l.toFinset) := by
          ext x
          by_cases hx : x = c
          · subst hx
            simp [h]
          · simp [hx, Finset.mem_erase]
        have hnot : c ∉ t.cells.erase c ∩ l.toFinset := by
          simp
        rw [hc, hcard, Finset.card_insert_of_not_mem hnot]
        refine congrArg (Sentence.mk _) ?_
        push_cast
        ring
      · rw [Sentence.mark_mine_of_not_mem h, ih]
        have hc : t.cells \ l.toFinset = t.cells \ (c :: l).toFinset := by
          ext x
          simp only [Finset.mem_sdiff, List.toFinset_cons, Finset.mem_insert, List.mem_toFinset]
          constructor
          · rintro ⟨hx1, hx2⟩
            exact ⟨hx1, by rintro (rfl | hx3) <;> [exact h hx1; exact hx2 hx3]⟩
          · rintro ⟨hx1, hx2⟩
            exact ⟨hx1, fun hx3 => hx2 (Or.inr hx3)⟩
        have hcard : t.cells ∩ (c :: l).toFinset = t.cells ∩ l.toFinset := by
          ext x
          by_cases hx : x = c
          · subst hx
            simp [h]
          · simp [hx]
        rw [hc, hcard]

/-- The pruning of `add_knowledge` steps 3.3 and 3.4 — the two source
loops run over any enumerations of `self.safes` and `self.mines` — equals
`pruneSentence`, for every iteration order of the two Python sets. -/
lemma pruneSentence_spec (ls lm : List Cell) (t : Sentence) :
    lm.foldl Sentence.mark_mine (ls.foldl Sentence.mark_safe t) =
      pruneSentence ls.toFinset lm.toFinset t := by
  rw [foldl_mark_safe, foldl_mark_mine]
  rfl

/-- Folding `List.erase` over values all different from `a` cannot remove
`a` from the list. -/
lemma mem_foldl_erase {a : Sentence} (L : List Sentence) {kb : List Sentence}
    (hL : ∀ v ∈ L, v ≠ a) (ha : a ∈ kb) : a ∈ L.foldl List.erase kb := by
  induction L generalizing kb with
  | nil => exact ha
  | cons v L ih =>
      rw [List.foldl_cons]
      refine ih (fun w hw => hL w (List.mem_cons_of_mem _ hw)) ?_
      exact (List.mem_erase_of_ne (Ne.symm (hL v (List.mem_cons_self v L)))).mpr ha

/-- A sentence that is not scheduled for removal in step 4 survives the
`list.remove` calls of step 4.5. -/
lemma mem_step4Remove {a : Sentence} {kb : List Sentence}
    (ha : a ∈ kb) (hres : resolvedTruthy a = false) : a ∈ step4Remove kb := by
  unfold step4Remove
  refine mem_foldl_erase _ ?_ ha
  intro v hv hva
  have hv2 : resolvedTruthy v = true := (List.mem_filter.mp (List.mem_dedup.mp hv)).2
  rw [hva, hres] at hv2
  exact Bool.false_ne_true hv2

/-- Step 5 never touches `moves_made`, `mines` or `safes`, on either the
normal or the exceptional path. -/
lemma akStep5_sets (s : MinesweeperAI) :
    (akStep5 s).1.moves_made = s.moves_made ∧ (akStep5 s).1.mines = s.mines ∧
      (akStep5 s).1.safes = s.safes ∧ (akStep5 s).1.height = s.height ∧
      (akStep5 s).1.width = s.width := by
  unfold akStep5
  split <;> exact ⟨rfl, rfl, rfl, rfl, rfl⟩

/-- Behaviour of step 5 when some subset pair derives a negative count:
the exception is raised and the state is returned as step 4 left it. -/
lemma akStep5_of_neg {s : MinesweeperAI}
    (h : ∃ p ∈ subsetPairs s.knowledge, (derivedSentence s.knowledge p).count < 0) :
    akStep5 s = (s, some subsetErrMsg) := by
  unfold akStep5
  rw [if_pos]
  rw [List.any_eq_true]
  obtain ⟨p, hp, hneg⟩ := h
  exact ⟨p, hp, by simpa using hneg⟩

/-- Behaviour of step 5 when no subset pair derives a negative count: the
derived sentences (deduplicated) are appended and no exception is raised. -/
lemma akStep5_of_nonneg {s : MinesweeperAI}
    (h : ∀ p ∈ subsetPairs s.knowledge, 0 ≤ (derivedSentence s.knowledge p).count) :
    akStep5 s =
      ({ s with knowledge := s.knowledge ++
          ((subsetPairs s.knowledge).map (derivedSentence s.knowledge)).dedup }, none) := by
  unfold akStep5
  rw [if_neg]
  rw [List.any_eq_true]
  rintro ⟨p, hp, hneg⟩
  have := h p hp
  simp only [decide_eq_true_eq] at hneg
  omega

/-- Projections of the state after steps 1 through 3. -/
lemma akStepsThrough3_proj (s : MinesweeperAI) (cell : Cell) (cnt : Int) :
    (akStepsThrough3 s cell cnt).moves_made = insert cell s.moves_made ∧
      (akStepsThrough3 s cell cnt).safes = insert cell s.safes ∧
      (akStepsThrough3 s cell cnt).mines = s.mines ∧
      (akStepsThrough3 s cell cnt).knowledge =
        s.knowledge.map (fun t => t.mark_safe cell) ++
          [pruneSentence (insert cell s.safes) s.mines ⟨s.get_neighbors cell, cnt⟩] :=
  ⟨rfl, rfl, rfl, rfl⟩

/-- Projections of the state after step 4. -/
lemma akStep4_proj (s : MinesweeperAI) :
    (akStep4 s).moves_made = s.moves_made ∧
      (akStep4 s).safes = s.safes ∪ inferredSafes s.knowledge ∧
      (akStep4 s).mines = s.mines ∪ inferredMines s.knowledge ∧
      (akStep4 s).knowledge = step4Remove s.knowledge :=
  ⟨rfl, rfl, rfl, rfl⟩

/-- After `mark_mine` the cell is gone from the sentence, so a second
`mark_mine` with the same cell finds nothing to remove. -/
lemma Sentence.mark_mine_cell_gone (t : Sentence) (c : Cell) :
    c ∉ (t.mark_mine c).cells := by
  unfold Sentence.mark_mine
  by_cases h : c ∈ t.cells
  · rw [if_pos h]
    exact Finset.not_mem_erase c t.cells
  · rw [if_neg h]
    exact h

/-- After `mark_safe` the cell is gone from the sentence. -/
lemma Sentence.mark_safe_cell_gone (t : Sentence) (c : Cell) :
    c ∉ (t.mark_safe c).cells := by
  unfold Sentence.mark_safe
  by_cases h : c ∈ t.cells
  · rw [if_pos h]
    exact Finset.not_mem_erase c t.cells
  · rw [if_neg h]
    exact h

/-- The sentence-level `mark_mine` is idempotent: the second call sees the
cell absent and is a no-op, so the count is not decremented twice. -/
lemma Sentence.mark_mine_idem (t : Sentence) (c : Cell) :
    (t.mark_mine c).mark_mine c = t.mark_mine c :=
  Sentence.mark_mine_of_not_mem (Sentence.mark_mine_cell_gone t c)

/-- Reduction of `Sentence.mark_safe` when the cell is absent. -/
lemma Sentence.mark_safe_of_not_mem {t : Sentence} {c : Cell} (h : c ∉ t.cells) :
    t.mark_safe c = t := by
  unfold Sentence.mark_safe
  rw [if_neg h]

/-- The sentence-level `mark_safe` is idempotent. -/
lemma Sentence.mark_safe_idem (t : Sentence) (c : Cell) :
    (t.mark_safe c).mark_safe c = t.mark_safe c :=
  Sentence.mark_safe_of_not_mem (Sentence.mark_safe_cell_gone t c)

/-- A cell returned by the `make_random_move` loop is neither an already
made move nor a known mine. -/
lemma mrmGo_sound (moves mines : Finset Cell) (draws : Nat → Cell) :
    ∀ fuel idx c, mrmGo moves mines draws fuel idx = some c → c ∉ moves ∧ c ∉ mines := by
  intro fuel
  induction fuel with
  | zero =>
      intro idx c h
      exact Option.noConfusion h
  | succ n ih =>
      intro idx c h
      rw [mrmGo] at h
      by_cases hd : draws idx ∉ moves ∧ draws idx ∉ mines
      · rw [if_pos hd] at h
        cases h
        exact hd
      · rw [if_neg hd] at h
        exact ih _ _ h

/-- When every draw hits a made move or a known mine, the
`make_random_move` loop exhausts its counter and returns `None`. -/
lemma mrmGo_exhaust (moves mines : Finset Cell) (draws : Nat → Cell)
    (h : ∀ i, draws i ∈ moves ∪ mines) :
    ∀ fuel idx, mrmGo moves mines draws fuel idx = none := by
  intro fuel
  induction fuel with
  | zero => intro idx; rfl
  | succ n ih =>
      intro idx
      rw [mrmGo]
      rw [if_neg]
      · exact ih _
      · have := h idx
        rw [Finset.mem_union] at this
        tauto

/-- Claim C1 is false on the code: starting from `stateC1`, whose knowledge
base holds `({(0,1),(1,0),(1,1)}, 1)`, the `add_knowledge` call on `(2,1)`
with count 1 appends `({(1,0),(1,1)}, 1)` — the call that brings the two
overlapping constraints of the claim's scenario together, with
`C = (0,1)` — yet after the call returns (normally) the cell `(0,1)` is not
in `safes`: the knowledge base is not at a fixpoint. -/
theorem C1_counterex :
    (stateC1.add_knowledge (2, 1) 1).2 = none ∧
      Sentence.mk {(0, 1), (1, 0), (1, 1)} 1 ∈ (stateC1.add_knowledge (2, 1) 1).1.knowledge ∧
      Sentence.mk {(1, 0), (1, 1)} 1 ∈ (stateC1.add_knowledge (2, 1) 1).1.knowledge ∧
      ((0 : Int), (1 : Int)) ∉ (stateC1.add_knowledge (2, 1) 1).1.safes := by
  decide

/-- Claim C1 amended: `add_knowledge` performs a single deduction pass, not
a loop to fixpoint.  The call that brings `({A,B,C}, 1)` and `({A,B}, 1)`
together derives and appends the sentence `({C}, 0)` to the knowledge
base, but `C` does not enter `known_safe` during that call; `C` is placed
in `safes` only by the extraction step of the next `add_knowledge` call. -/
theorem C1_amended :
    Sentence.mk {((0 : Int), (1 : Int))} 0 ∈ (stateC1.add_knowledge (2, 1) 1).1.knowledge ∧
      ((0 : Int), (1 : Int)) ∉ (stateC1.add_knowledge (2, 1) 1).1.safes ∧
      ((0 : Int), (1 : Int)) ∈
        (((stateC1.add_knowledge (2, 1) 1).1.add_knowledge (0, 2) 1)).1.safes := by
  decide

/-- Claim C2 fails on this code (the spec and the class's own
`mark_mine` docstring describe a global update, but step 4.4 of
`add_knowledge` adds inferred cells directly to `self.mines`/`self.safes`
without calling `self.mark_mine`/`self.mark_safe`): on a 1×4 grid, after
observing `(0,1)` with count 1 and then `(0,3)` with count 1, the cell
`(0,2)` is a known mine yet the live sentence `({(0,0),(0,2)}, 1)` still
contains it. -/
theorem C2_bug_eval :
    (((stateC2.add_knowledge (0, 1) 1).1.add_knowledge (0, 3) 1)).2 = none ∧
      ((0 : Int), (2 : Int)) ∈
        (((stateC2.add_knowledge (0, 1) 1).1.add_knowledge (0, 3) 1)).1.mines ∧
      Sentence.mk {(0, 0), (0, 2)} 1 ∈
        (((stateC2.add_knowledge (0, 1) 1).1.add_knowledge (0, 3) 1)).1.knowledge ∧
      ((0 : Int), (2 : Int)) ∈ (Sentence.mk {((0 : Int), (0 : Int)), (0, 2)} 1).cells := by
  decide

/-- Claim C3 is false on the code: the observation-recording operation
performs no input validation.  On a fresh 3×3 engine, `add_knowledge` with
`hazard_count = 9` on the center cell `(1,1)` (which has only 8 neighbors)
returns without any error and mutates the state: the cell is recorded in
`moves_made` (and in `safes`). -/
theorem C3_counterex :
    (fresh33.add_knowledge (1, 1) 9).2 = none ∧
      (fresh33.add_knowledge (1, 1) 9).1.moves_made = {(1, 1)} ∧
      (fresh33.add_knowledge (1, 1) 9).1 ≠ fresh33 := by
  decide

/-- Claim C3 amended: `record_observation` (`add_knowledge`) performs no
validation at all — for every state, every cell (in bounds or not) and
every count, the cell is unconditionally recorded in `probed`
(`moves_made`) and in `known_safe` (`safes`) before any deduction, and no
caller-input error exists in the code. -/
theorem C3_amended (s : MinesweeperAI) (cell : Cell) (cnt : Int) :
    cell ∈ (s.add_knowledge cell cnt).1.moves_made ∧
      cell ∈ (s.add_knowledge cell cnt).1.safes := by
  have h5 := akStep5_sets (akStep4 (akStepsThrough3 s cell cnt))
  have hm : (s.add_knowledge cell cnt).1.moves_made = insert cell s.moves_made := by
    rw [MinesweeperAI.add_knowledge, h5.1]
    rfl
  have hs : (s.add_knowledge cell cnt).1.safes =
      insert cell s.safes ∪ inferredSafes (akStepsThrough3 s cell cnt).knowledge := by
    rw [MinesweeperAI.add_knowledge, h5.2.2.1]
    rfl
  constructor
  · rw [hm]
    exact Finset.mem_insert_self cell s.moves_made
  · rw [hs]
    exact Finset.mem_union_left _ (Finset.mem_insert_self cell s.safes)

/-- Claim C4 is false on the code: there is no disjointness check anywhere.
Marking `(0,0)` safe and then marking the same cell a mine succeeds with no
error (the mark operations cannot fail), leaving the cell in both
`safes` and `mines`. -/
theorem C4_counterex :
    ((0 : Int), (0 : Int)) ∈ ((fresh33.mark_safe (0, 0)).mark_mine (0, 0)).safes ∧
      ((0 : Int), (0 : Int)) ∈ ((fresh33.mark_safe (0, 0)).mark_mine (0, 0)).mines := by
  decide

/-- Claim C4 amended: the code never checks disjointness and cannot signal
an error, so `known_safe ∩ known_hazard = ∅` is not enforced; what does
hold is that each mark operation preserves disjointness when the marked
cell is not already in the opposite set. -/
theorem C4_amended (s : MinesweeperAI) (c : Cell) (hd : s.safes ∩ s.mines = ∅) :
    (c ∉ s.safes → (s.mark_mine c).safes ∩ (s.mark_mine c).mines = ∅) ∧
      (c ∉ s.mines → (s.mark_safe c).safes ∩ (s.mark_safe c).mines = ∅) := by
  constructor
  · intro hc
    show s.safes ∩ insert c s.mines = ∅
    rw [Finset.inter_insert_of_not_mem hc]
    exact hd
  · intro hc
    show insert c s.safes ∩ s.mines = ∅
    rw [Finset.insert_inter_of_not_mem hc]
    exact hd

/-- Witness for `C4_amended` at a fresh 3×3 engine and cell `(0,0)`. -/
theorem C4_witness :
    ((fresh33.mark_mine (0, 0)).safes ∩ (fresh33.mark_mine (0, 0)).mines = ∅) ∧
      ((fresh33.mark_safe (0, 0)).safes ∩ (fresh33.mark_safe (0, 0)).mines = ∅) :=
  ⟨(C4_amended fresh33 (0, 0) (by decide)).1 (by decide),
   (C4_amended fresh33 (0, 0) (by decide)).2 (by decide)⟩

/-- Claim C5 is false on the code: `Sentence.mark_mine` decrements
unconditionally (the source comments explicitly decline the edge-case
check).  Marking `(0,1)` as a mine in a state whose knowledge base holds
the count-0 sentence `({(0,1)}, 0)` silently produces the live sentence
`(∅, -1)` — count below zero at an observable point, with no error. -/
theorem C5_counterex :
    (stateC5.mark_mine (0, 1)).knowledge = [Sentence.mk ∅ (-1)] ∧
      ((0 : Int), (1 : Int)) ∈ (stateC5.mark_mine (0, 1)).mines := by
  decide

/-- Claim C5 amended: no invariant is enforced and no error is signalled;
`record_hazard` on a count-0 constraint drives the count to −1.  What
holds is that `Sentence.mark_mine` preserves `0 ≤ count ≤ |cells|`
exactly when the count is at least 1 (or the cell absent). -/
theorem C5_amended (t : Sentence) (c : Cell) (h1 : 1 ≤ t.count)
    (h2 : t.count ≤ (t.cells.card : Int)) :
    0 ≤ (t.mark_mine c).count ∧
      (t.mark_mine c).count ≤ ((t.mark_mine c).cells.card : Int) := by
  by_cases h : c ∈ t.cells
  · rw [Sentence.mark_mine_of_mem h]
    have hcard : (t.cells.erase c).card = t.cells.card - 1 := Finset.card_erase_of_mem h
    have hpos : 0 < t.cells.card := Finset.card_pos.mpr ⟨c, h⟩
    constructor
    · simp only []
      omega
    · simp only [hcard]
      omega
  · rw [Sentence.mark_mine_of_not_mem h]
    exact ⟨by omega, h2⟩

/-- Witness for `C5_amended` at the sentence `({(0,0)}, 1)` and cell
`(0,0)`. -/
theorem C5_witness :
    0 ≤ ((Sentence.mk {((0 : Int), (0 : Int))} 1).mark_mine (0, 0)).count ∧
      ((Sentence.mk {((0 : Int), (0 : Int))} 1).mark_mine (0, 0)).count ≤
        ((((Sentence.mk {((0 : Int), (0 : Int))} 1).mark_mine (0, 0)).cells.card : Int)) :=
  C5_amended (Sentence.mk {((0 : Int), (0 : Int))} 1) (0, 0) (by decide) (by decide)

/-- Claim C6 is false on the code: on a fresh 2×2 engine, observing
`(0,0)` with count 0 makes every cell safe; the next observation
`((1,1), 0)` builds a fresh sentence whose cells are all pruned away, and
this informationless sentence `(∅, 0)` is appended anyway (step 3.5 has no
emptiness guard) and retained (an empty set is falsy, so the extraction
step never removes it). -/
theorem C6_counterex :
    (((stateC6.add_knowledge (0, 0) 0).1.add_knowledge (1, 1) 0)).2 = none ∧
      Sentence.mk ∅ 0 ∈
        (((stateC6.add_knowledge (0, 0) 0).1.add_knowledge (1, 1) 0)).1.knowledge := by
  decide

/-- Claim C6 amended: the fresh sentence of step 3 is pruned so its cells
avoid everything in `safes` (including the probed cell) and `mines`, but
no emptiness check exists: a sentence with empty cells, once present, is
appended and retained by every later `add_knowledge` call (it is never
extracted, never removed, and never blocks). -/
theorem C6_amended (s : MinesweeperAI) (cell : Cell) (cnt : Int)
    (h : Sentence.mk ∅ 0 ∈ s.knowledge) :
    Disjoint (pruneSentence (insert cell s.safes) s.mines
        ⟨s.get_neighbors cell, cnt⟩).cells (insert cell s.safes ∪ s.mines) ∧
      Sentence.mk ∅ 0 ∈ (s.add_knowledge cell cnt).1.knowledge := by
  constructor
  · show Disjoint ((s.get_neighbors cell \ insert cell s.safes) \ s.mines) _
    rw [Finset.disjoint_union_right]
    exact ⟨Finset.disjoint_of_subset_left Finset.sdiff_subset Finset.sdiff_disjoint,
      Finset.sdiff_disjoint⟩
  · have hmem1 : Sentence.mk ∅ 0 ∈ (akStepsThrough3 s cell cnt).knowledge := by
      rw [(akStepsThrough3_proj s cell cnt).2.2.2]
      refine List.mem_append_left _ ?_
      refine List.mem_map.mpr ⟨Sentence.mk ∅ 0, h, ?_⟩
      exact Sentence.mark_safe_of_not_mem (Finset.not_mem_empty cell)
    have hmem4 : Sentence.mk ∅ 0 ∈ (akStep4 (akStepsThrough3 s cell cnt)).knowledge := by
      rw [(akStep4_proj _).2.2.2]
      exact mem_step4Remove hmem1 (by decide)
    rw [MinesweeperAI.add_knowledge]
    by_cases hneg : ∃ p ∈ subsetPairs (akStep4 (akStepsThrough3 s cell cnt)).knowledge,
        (derivedSentence (akStep4 (akStepsThrough3 s cell cnt)).knowledge p).count < 0
    · rw [akStep5_of_neg hneg]
      exact hmem4
    · have hnn : ∀ p ∈ subsetPairs (akStep4 (akStepsThrough3 s cell cnt)).knowledge,
          0 ≤ (derivedSentence (akStep4 (akStepsThrough3 s cell cnt)).knowledge p).count := by
        intro p hp
        by_contra hlt
        exact hneg ⟨p, hp, by omega⟩
      rw [akStep5_of_nonneg hnn]
      exact List.mem_append_left _ hmem4

/-- Witness for `C6_amended` at a 2×2 state already holding `(∅, 0)`. -/
theorem C6_witness :
    Disjoint (pruneSentence (insert ((0 : Int), (0 : Int)) stateC6w.safes) stateC6w.mines
        ⟨stateC6w.get_neighbors (0, 0), 0⟩).cells
      (insert ((0 : Int), (0 : Int)) stateC6w.safes ∪ stateC6w.mines) ∧
      Sentence.mk ∅ 0 ∈ (stateC6w.add_knowledge (0, 0) 0).1.knowledge :=
  C6_amended stateC6w (0, 0) 0 (by decide)

/-- Claim C7 holds: whenever some subset pair of the post-step-4 knowledge
base derives a negative count, `add_knowledge` raises the exception (it
propagates to the caller as the error component of the result) and the
knowledge base is exactly what step 4 left — no staged sentence is
appended; and in every case, any sentence that step 5 did add has a
non-negative count. -/
theorem C7_negative_derivation (s : MinesweeperAI) (cell : Cell) (cnt : Int) :
    ((∃ p ∈ subsetPairs (akStep4 (akStepsThrough3 s cell cnt)).knowledge,
        (derivedSentence (akStep4 (akStepsThrough3 s cell cnt)).knowledge p).count < 0) →
      (s.add_knowledge cell cnt).2 = some subsetErrMsg ∧
        (s.add_knowledge cell cnt).1.knowledge =
          (akStep4 (akStepsThrough3 s cell cnt)).knowledge) ∧
      ∀ t ∈ (s.add_knowledge cell cnt).1.knowledge,
        t ∉ (akStep4 (akStepsThrough3 s cell cnt)).knowledge → 0 ≤ t.count := by
  constructor
  · intro hneg
    rw [MinesweeperAI.add_knowledge, akStep5_of_neg hneg]
    exact ⟨rfl, rfl⟩
  · intro t ht htn
    rw [MinesweeperAI.add_knowledge] at ht
    by_cases hneg : ∃ p ∈ subsetPairs (akStep4 (akStepsThrough3 s cell cnt)).knowledge,
        (derivedSentence (akStep4 (akStepsThrough3 s cell cnt)).knowledge p).count < 0
    · rw [akStep5_of_neg hneg] at ht
      exact absurd ht htn
    · have hnn : ∀ p ∈ subsetPairs (akStep4 (akStepsThrough3 s cell cnt)).knowledge,
          0 ≤ (derivedSentence (akStep4 (akStepsThrough3 s cell cnt)).knowledge p).count := by
        intro p hp
        by_contra hlt
        exact hneg ⟨p, hp, by omega⟩
      rw [akStep5_of_nonneg hnn] at ht
      have ht2 : t ∈ (akStep4 (akStepsThrough3 s cell cnt)).knowledge ++
          ((subsetPairs (akStep4 (akStepsThrough3 s cell cnt)).knowledge).map
            (derivedSentence (akStep4 (akStepsThrough3 s cell cnt)).knowledge)).dedup := ht
      rcases List.mem_append.mp ht2 with h1 | h2
      · exact absurd h1 htn
      · obtain ⟨p, hp, hpt⟩ := List.mem_map.mp (List.mem_dedup.mp h2)
        rw [← hpt]
        exact hnn p hp

/-- Witness for `C7_negative_derivation`: in `stateC7` the probed cell
`(2,2)` leaves both sentences alive, the pair `(0, 1)` satisfies
`KB[0].cells ⊆ KB[1].cells` with derived count `1 - 2 = -1`, the call
errors, and the knowledge base keeps exactly the step-4 sentences. -/
theorem C7_witness :
    (stateC7.add_knowledge (2, 2) 1).2 = some subsetErrMsg ∧
      (stateC7.add_knowledge (2, 2) 1).1.knowledge =
        (akStep4 (akStepsThrough3 stateC7 (2, 2) 1)).knowledge :=
  (C7_negative_derivation stateC7 (2, 2) 1).1 (by decide)

/-- Claim C8 is false on the code: on a 1×2 grid with only `(0,0)` probed,
the unprobed non-mine cell `(0,1)` exists, yet the random-number sequence
that always draws `(0,0)` makes `make_random_move` burn its
`height * width` attempt counter on occupied cells and return `None`. -/
theorem C8_counterex :
    stateC8.make_random_move (fun _ => ((0 : Int), (0 : Int))) = none ∧
      inGrid stateC8 ((0 : Int), (1 : Int)) ∧
      ((0 : Int), (1 : Int)) ∉ stateC8.moves_made ∧
      ((0 : Int), (1 : Int)) ∉ stateC8.mines := by
  decide

/-- Claim C8 amended: `make_random_move` bounds its rejection sampling by
`height * width` failed draws rather than sampling from the candidate set,
so it may return `None` while a candidate remains.  What holds: a returned
cell is always outside `probed ∪ known_hazard`, and when every in-grid
cell is probed or a known hazard (so every in-grid draw is occupied) the
loop always returns `None`. -/
theorem C8_amended (s : MinesweeperAI) (draws : Nat → Cell) :
    (∀ c, s.make_random_move draws = some c → c ∉ s.moves_made ∧ c ∉ s.mines) ∧
      ((∀ i, inGrid s (draws i)) →
        (∀ c, inGrid s c → c ∈ s.moves_made ∪ s.mines) →
        s.make_random_move draws = none) := by
  constructor
  · intro c h
    exact mrmGo_sound s.moves_made s.mines draws _ _ c h
  · intro hg hall
    exact mrmGo_exhaust s.moves_made s.mines draws (fun i => hall _ (hg i)) _ _

/-- Witness for `C8_amended` on the fully probed 1×1 grid: the random move
is `None`. -/
theorem C8_witness :
    stateC8w.make_random_move (fun _ => ((0 : Int), (0 : Int))) = none :=
  (C8_amended stateC8w (fun _ => ((0 : Int), (0 : Int)))).2 (fun i => by decide)
    (fun c hc => by
      have hc2 : 0 ≤ c.1 ∧ c.1 < (1 : Int) ∧ 0 ≤ c.2 ∧ c.2 < (1 : Int) := hc
      have h1 : c.1 = 0 := by omega
      have h2 : c.2 = 0 := by omega
      have hceq : c = ((0 : Int), (0 : Int)) := Prod.ext h1 h2
      rw [hceq]
      decide)

/-- Claim C9 holds: `moves_made` (`probed`), `safes` (`known_safe`) and
`mines` (`known_hazard`) only grow.  `add_knowledge` only inserts the
probed cell and unions in the inferred cells, and the two mark operations
only insert, so each set before any of these operations is a subset of the
corresponding set afterwards (also on the exceptional path of
`add_knowledge`, since steps 1 through 4 have already run). -/
theorem C9_monotonic (s : MinesweeperAI) (cell c : Cell) (cnt : Int) :
    (s.moves_made ⊆ (s.add_knowledge cell cnt).1.moves_made ∧
      s.safes ⊆ (s.add_knowledge cell cnt).1.safes ∧
      s.mines ⊆ (s.add_knowledge cell cnt).1.mines) ∧
      (s.moves_made ⊆ (s.mark_mine c).moves_made ∧
        s.safes ⊆ (s.mark_mine c).safes ∧ s.mines ⊆ (s.mark_mine c).mines) ∧
      (s.moves_made ⊆ (s.mark_safe c).moves_made ∧
        s.safes ⊆ (s.mark_safe c).safes ∧ s.mines ⊆ (s.mark_safe c).mines) := by
  have h5 := akStep5_sets (akStep4 (akStepsThrough3 s cell cnt))
  have hm : (s.add_knowledge cell cnt).1.moves_made = insert cell s.moves_made := by
    rw [MinesweeperAI.add_knowledge, h5.1]
    rfl
  have hs : (s.add_knowledge cell cnt).1.safes =
      insert cell s.safes ∪ inferredSafes (akStepsThrough3 s cell cnt).knowledge := by
    rw [MinesweeperAI.add_knowledge, h5.2.2.1]
    rfl
  have hmi : (s.add_knowledge cell cnt).1.mines =
      s.mines ∪ inferredMines (akStepsThrough3 s cell cnt).knowledge := by
    rw [MinesweeperAI.add_knowledge, h5.2.1]
    rfl
  refine ⟨⟨?_, ?_, ?_⟩, ⟨?_, ?_, ?_⟩, ⟨?_, ?_, ?_⟩⟩
  · rw [hm]
    exact Finset.subset_insert cell s.moves_made
  · rw [hs]
    exact Finset.Subset.trans (Finset.subset_insert cell s.safes) Finset.subset_union_left
  · rw [hmi]
    exact Finset.subset_union_left
  · exact Finset.Subset.refl _
  · exact Finset.Subset.refl _
  · exact Finset.subset_insert c s.mines
  · exact Finset.Subset.refl _
  · exact Finset.subset_insert c s.safes
  · exact Finset.Subset.refl _

/-- Claim C10 holds: the engine-level mark operations are idempotent.  The
second call finds the cell already removed from every sentence (so no
count is decremented again) and already a member of the respective set, so
the state is unchanged. -/
theorem C10_idempotent (s : MinesweeperAI) (c : Cell) :
    (s.mark_mine c).mark_mine c = s.mark_mine c ∧
      (s.mark_safe c).mark_safe c = s.mark_safe c := by
  constructor
  · simp [MinesweeperAI.mark_mine, List.map_map, Function.comp_def, Sentence.mark_mine_idem]
  · simp [MinesweeperAI.mark_safe, List.map_map, Function.comp_def, Sentence.mark_safe_idem]
